import Mathlib

/-!
Shallow embedding of the deej firmware (`src/arduino/src/main.cpp`) and proofs
about its specified properties.

Modelling conventions:
* C `float`/`double` values are modelled exactly as unreduced fractions over ℤ
  (type `F` below).  Every floating-point constant of the firmware
  (`ENCODER_VOLUME_PER_COUNT = 0.5f`, the bounds `0.0`, `100.0`, …) is exactly
  representable, and the arithmetic the firmware performs on the reachable value
  ranges is exact, so the rational semantics coincides with the ideal real-number
  reading of the source.
* C integer division and remainder (`/`, `%` on `int`/`long`, which truncate
  toward zero) are `Int.tdiv` / `Int.tmod`.
* `round` (Arduino: half away from zero) is `F.cround`.
* `millis()` timestamps are natural numbers; the unsigned 32-bit subtraction
  `millis() - last` is `usub32`.
* Hardware effects (LP50xx register writes, MUX bank select, serial output)
  are reified as event lists so that theorems can talk about them.
-/

namespace Deej

/-- Exact value of a C floating-point expression, as an unreduced fraction
`num / den`.  All fractions produced by the embedded firmware code have a
positive denominator. -/
structure F where
  num : Int
  den : Int
deriving DecidableEq

/-- Denominator positivity: every `F` value the firmware actually builds
satisfies this. -/
def F.Pos (a : F) : Prop := 0 < a.den

def F.ofInt (n : Int) : F := ⟨n, 1⟩

def F.neg (a : F) : F := ⟨-a.num, a.den⟩

def F.mul (a b : F) : F := ⟨a.num * b.num, a.den * b.den⟩

def F.div (a b : F) : F := ⟨a.num * b.den, a.den * b.num⟩

def F.add (a b : F) : F := ⟨a.num * b.den + b.num * a.den, a.den * b.den⟩

def F.sub (a b : F) : F := a.add b.neg

/-- Comparison `a <= b` (valid for positive denominators). -/
def F.ble (a b : F) : Bool := decide (a.num * b.den ≤ b.num * a.den)

/-- Comparison `a < b` (valid for positive denominators). -/
def F.blt (a b : F) : Bool := decide (a.num * b.den < b.num * a.den)

/-- Numeric equality `a == b` (valid for positive denominators). -/
def F.beq (a b : F) : Bool := decide (a.num * b.den = b.num * a.den)

/-- Mathematical floor (valid for positive denominators). -/
def F.floor (a : F) : Int := Int.fdiv a.num a.den

/-- Mathematical ceiling (valid for positive denominators). -/
def F.ceil (a : F) : Int := -(Int.fdiv (-a.num) a.den)

def F.half : F := ⟨1, 2⟩

/-- C `round`: round half away from zero (the sign test `0 ≤ a.num` is the sign
of the value when the denominator is positive). -/
def F.cround (a : F) : Int :=
  if 0 ≤ a.num then (a.add F.half).floor else (a.sub F.half).ceil

/-- C truncation toward zero, as used by a cast of a floating value to an
integer type. -/
def F.ctrunc (a : F) : Int :=
  if 0 ≤ a.num then a.floor else a.ceil

-- --- System Configuration (main.cpp lines 5-10) ---

def DEBOUNCE_DELAY : Nat := 50

def MAX_ENCODER_VALUE : Int := 100

/-- `const float ENCODER_VOLUME_PER_COUNT = 0.5f` — exactly 1/2. -/
def ENCODER_VOLUME_PER_COUNT : F := ⟨1, 2⟩

-- --- LED Hardware & Color Definitions (main.cpp lines 13-34) ---

/-- RGB color; each component is a C `byte` value in `0..255`. -/
structure Color where
  r : Nat
  g : Nat
  b : Nat
deriving DecidableEq

/-- A C cast of an `int` to `byte` (modular). -/
def toByte (x : Int) : Nat := (x.emod 256).toNat

/-- `lerp` (main.cpp lines 15-21): each component is
`(byte)(a.c + (b.c - a.c) * t)` with the arithmetic done in floating point and
the cast truncating toward zero. -/
def lerp (a b : Color) (t : F) : Color :=
  { r := toByte (F.ctrunc (F.add (F.ofInt a.r) (F.mul (F.ofInt ((b.r : Int) - (a.r : Int))) t)))
  , g := toByte (F.ctrunc (F.add (F.ofInt a.g) (F.mul (F.ofInt ((b.g : Int) - (a.g : Int))) t)))
  , b := toByte (F.ctrunc (F.add (F.ofInt a.b) (F.mul (F.ofInt ((b.b : Int) - (a.b : Int))) t))) }

def LEDS_PER_CHIP : Int := 12

def LED_CHIP_ADDRESSES : List Int := [0x30, 0x31, 0x32, 0x33]

def NUM_CHIPS_PER_BANK : Int := 4

def LEDS_PER_BANK : Int := NUM_CHIPS_PER_BANK * LEDS_PER_CHIP

def TOTAL_LEDS : Int := 96

def ENCODER_LED_COUNT : Int := 10

def ENCODER_LED_ORDER_E1 : List Int := [10, 8, 6, 4, 1, 2, 3, 5, 7, 9]
def ENCODER_LED_ORDER_E2 : List Int := [1, 2, 10, 8, 6, 4, 3, 5, 7, 9]
def ENCODER_LED_ORDER_E3 : List Int := [1, 2, 3, 4, 8, 5, 6, 7, 9, 10]
def ENCODER_LED_ORDER_E4 : List Int := [1, 2, 3, 4, 5, 6, 7, 8, 9, 10]
def ENCODER_LED_ORDER_E5 : List Int := [2, 4, 6, 7, 8, 5, 3, 1, 9, 10]
def ENCODER_LED_ORDER_E6 : List Int := [2, 4, 6, 8, 9, 10, 7, 5, 3, 1]

-- --- Background Lighting (main.cpp lines 36-46) ---

def BACKLIGHT_FIRST_LED : Int := 65

def BACKLIGHT_LAST_LED : Int := 96

def BACKLIGHT_LED_COUNT : Int := BACKLIGHT_LAST_LED - BACKLIGHT_FIRST_LED + 1

inductive BackgroundMode
  | BG_OFF
  | BG_SOLID
  | BG_RGB
deriving DecidableEq

export BackgroundMode (BG_OFF BG_SOLID BG_RGB)

def BUTTON_ACTIVE_COLOR : Color := ⟨50, 50, 50⟩

def BUTTON_INACTIVE_COLOR : Color := ⟨0, 0, 0⟩

-- --- LP50xx Register Definitions (main.cpp lines 49-51) ---

def OUT0_COLOR_ADDR : Int := 0x14

-- --- LED bus events ---

/-- One observable hardware transaction issued by the firmware.
`selectBank k` records `digitalWrite(MUX_SELECT_PIN, k == 0 ? LOW : HIGH)`;
`regWrite addr reg c` records the 3-byte I²C register write
`beginTransmission(addr); write(reg); write(c.r); write(c.g); write(c.b);
endTransmission()`. -/
inductive BusEvent
  | selectBank (bank : Int)
  | regWrite (chipAddress : Int) (register : Int) (c : Color)
deriving DecidableEq

/-- `setSingleLedColor` (main.cpp lines 369-385), reified as the list of bus
transactions it issues.  Out-of-range indices produce no transaction. -/
def setSingleLedColor (ledNum : Int) (c : Color) : List BusEvent :=
  if ledNum < 1 ∨ ledNum > TOTAL_LEDS then []
  else
    let bankIndex := Int.tdiv (ledNum - 1) LEDS_PER_BANK
    let ledNumInBank := Int.tmod (ledNum - 1) LEDS_PER_BANK
    let chipIndexInBank := Int.tdiv ledNumInBank LEDS_PER_CHIP
    let chipAddress := LED_CHIP_ADDRESSES.getD chipIndexInBank.toNat 0
    let ledNumOnChip := Int.tmod ledNumInBank LEDS_PER_CHIP
    let baseOutput := ledNumOnChip * 3
    [BusEvent.selectBank bankIndex,
     BusEvent.regWrite chipAddress (OUT0_COLOR_ADDR + baseOutput) c]

-- --- Volume Mapping Engine (main.cpp lines 144-155) ---

/-- `encoderCountToVolume` with the per-detent scale `K` made explicit
(source: `double volume = (-rawCount) * ENCODER_VOLUME_PER_COUNT`). -/
def encoderCountToVolumeK (K : F) (rawCount : Int) : F :=
  F.mul (F.ofInt (-rawCount)) K

/-- `volumeToEncoderCount` with the per-detent scale `K` made explicit
(source: if `K <= 0.0f` return `0`, else `(long)round(-volume / K)`). -/
def volumeToEncoderCountK (K : F) (volume : F) : Int :=
  if F.ble K (F.ofInt 0) then 0
  else F.cround (F.div (F.neg volume) K)

def encoderCountToVolume (rawCount : Int) : F :=
  encoderCountToVolumeK ENCODER_VOLUME_PER_COUNT rawCount

def volumeToEncoderCount (volume : F) : Int :=
  volumeToEncoderCountK ENCODER_VOLUME_PER_COUNT volume

-- --- Input Device Structs (main.cpp lines 55-129) ---

/-- C `digitalRead` result `LOW`. -/
def LOW : Nat := 0

/-- C `digitalRead` result `HIGH`. -/
def HIGH : Nat := 1

/-- One rotary channel (`struct EncoderInfo`).  Pin numbers and the display
name are irrelevant to the verified behaviour and are omitted; `driverCount`
models the hardware-owned `InterruptEncoder::count` of the channel's driver.
The declared-but-never-read `isPressed` field is omitted. -/
structure EncoderInfo where
  startLed : Int
  ledOrder : List Int
  driverCount : Int
  lastDetentPosition : Int
  isMuted : Bool
  lastButtonState : Nat
  lastDebounceTime : Nat
  zeroColor : Color
  fullColor : Color
deriving DecidableEq

/-- `getRawCount` (main.cpp line 87): `driver.read() / 2` with C division. -/
def EncoderInfo.getRawCount (e : EncoderInfo) : Int := Int.tdiv e.driverCount 2

/-- One output-select push button (`struct ButtonInfo`); name and pin
omitted. -/
structure ButtonInfo where
  ledNum : Int
  lastState : Nat
  lastDebounceTime : Nat
deriving DecidableEq

def numEncoders : Int := 6

def numButtons : Int := 4

-- --- Deej Communication (main.cpp lines 264-276) ---

/-- Arduino `map(x, in_min, in_max, out_min, out_max)`:
`(x - in_min) * (out_max - out_min) / (in_max - in_min) + out_min` with
truncating `long` division. -/
def arduinoMap (x inMin inMax outMin outMax : Int) : Int :=
  Int.tdiv ((x - inMin) * (outMax - outMin)) (inMax - inMin) + outMin

/-- The per-channel value sent by `sendEncoderValues`:
`map(isMuted ? 0 : lastDetentPosition, 0, MAX_ENCODER_VALUE, 0, 1023)`. -/
def deejValue (e : EncoderInfo) : Int :=
  arduinoMap (if e.isMuted then 0 else e.lastDetentPosition) 0 MAX_ENCODER_VALUE 0 1023

/-- `sendEncoderValues` (main.cpp lines 264-276): the telemetry line (without
the line terminator) built by joining the per-channel values with `|`. -/
def sendEncoderValues (encoders : List EncoderInfo) : String :=
  String.intercalate "|" (encoders.map (fun e => toString (deejValue e)))

-- --- Channel Rendering (main.cpp lines 335-367) ---

/-- `ledsToLight` of `updateEncoderLedDisplay` (main.cpp lines 338-339):
`round(((float)lastDetentPosition / MAX_ENCODER_VALUE) * ENCODER_LED_COUNT)`. -/
def ledsToLight (lastDetentPosition : Int) : Int :=
  F.cround (F.mul (F.div (F.ofInt lastDetentPosition) (F.ofInt MAX_ENCODER_VALUE))
                  (F.ofInt ENCODER_LED_COUNT))

/-- The clear loop of `updateEncoderLedDisplay` (lines 341-344): every LED of
the channel segment is first set to black, as (led, color) pairs. -/
def clearPairs (e : EncoderInfo) : List (Int × Color) :=
  (List.range ENCODER_LED_COUNT.toNat).map
    (fun i => (e.startLed + ((i : Int) + 1) - 1, (⟨0, 0, 0⟩ : Color)))

/-- The muted branch of `updateEncoderLedDisplay` (lines 346-353): the first
`ledsToLight` positions in wiring order get the fixed muted color. -/
def mutedPairs (e : EncoderInfo) : List (Int × Color) :=
  (List.range (ledsToLight e.lastDetentPosition).toNat).map
    (fun i =>
      let localLedIndex := e.ledOrder.getD i ((i : Int) + 1)
      (e.startLed + localLedIndex - 1, (⟨50, 0, 0⟩ : Color)))

/-- The gradient branch of `updateEncoderLedDisplay` (lines 355-366):
`segmentPercent = (float)i / (ENCODER_LED_COUNT - 1)`, forced to `0` when only
one LED lights, blended between the channel's color stops. -/
def gradientPairs (e : EncoderInfo) : List (Int × Color) :=
  let n := ledsToLight e.lastDetentPosition
  (List.range n.toNat).map
    (fun i =>
      let localLedIndex := e.ledOrder.getD i ((i : Int) + 1)
      let segmentPercent :=
        if n = 1 then F.ofInt 0
        else F.div (F.ofInt (i : Int)) (F.ofInt (ENCODER_LED_COUNT - 1))
      (e.startLed + localLedIndex - 1, lerp e.zeroColor e.fullColor segmentPercent))

/-- The (led, color) writes issued by one rendering pass, in order: clear the
whole segment, then light the first `ledsToLight` positions. -/
def renderPairs (e : EncoderInfo) : List (Int × Color) :=
  clearPairs e ++ (if e.isMuted then mutedPairs e else gradientPairs e)

/-- `updateEncoderLedDisplay` (main.cpp lines 335-367) as its list of bus
transactions. -/
def updateEncoderLedDisplay (e : EncoderInfo) : List BusEvent :=
  (renderPairs e).flatMap (fun p => setSingleLedColor p.1 p.2)

-- --- Output Selector (main.cpp lines 157-174) ---

/-- The per-button LED writes of `applyOutputSelection` (lines 165-168),
from loop index `i` on: every button LED gets the active color when its index
equals the selected one (`isSelected = (i == selectedOutputIndex)`), otherwise
the inactive color. -/
def outputLedPairsFrom (selectedOutputIndex : Int) (i : Nat) :
    List ButtonInfo → List (Int × Color)
  | [] => []
  | b :: bs =>
    (b.ledNum,
     if (i : Int) = selectedOutputIndex then BUTTON_ACTIVE_COLOR
     else BUTTON_INACTIVE_COLOR) :: outputLedPairsFrom selectedOutputIndex (i + 1) bs

/-- The per-button LED writes of `applyOutputSelection` (lines 165-168). -/
def outputLedPairs (buttons : List ButtonInfo) (selectedOutputIndex : Int) :
    List (Int × Color) :=
  outputLedPairsFrom selectedOutputIndex 0 buttons

/-- `applyOutputSelection` (main.cpp lines 157-174): returns the new
`selectedOutputIndex`, the bus transactions, and the serial lines printed.
Out-of-range indices change nothing. -/
def applyOutputSelection (buttons : List ButtonInfo) (selectedOutputIndex : Int)
    (index : Int) (notifySerial : Bool) : Int × List BusEvent × List String :=
  if index < 0 ∨ index ≥ (buttons.length : Int) then (selectedOutputIndex, [], [])
  else
    let previousIndex := selectedOutputIndex
    let newIndex := index
    let events := (outputLedPairs buttons newIndex).flatMap
      (fun p => setSingleLedColor p.1 p.2)
    let outs :=
      if notifySerial ∧ previousIndex ≠ newIndex then ["O:" ++ toString (newIndex + 1)]
      else []
    (newIndex, events, outs)

-- --- Debounce (main.cpp lines 233-255) ---

/-- Unsigned 32-bit wrap-around subtraction, the semantics of
`millis() - lastDebounceTime` on `unsigned long`. -/
def usub32 (a b : Nat) : Nat := (a + 4294967296 - b % 4294967296) % 4294967296

/-- The encoder-button poll body (main.cpp lines 233-243): accept the reading
when it differs from the last accepted state and the debounce window has
elapsed; on an accepted LOW (pressed) edge toggle the mute flag and
re-render. -/
def encoderButtonStep (e : EncoderInfo) (reading : Nat) (now : Nat) :
    EncoderInfo × List BusEvent :=
  if reading ≠ e.lastButtonState ∧ usub32 now e.lastDebounceTime > DEBOUNCE_DELAY then
    let e1 := { e with lastDebounceTime := now, lastButtonState := reading }
    if reading = LOW then
      let e2 := { e1 with isMuted := !e1.isMuted }
      (e2, updateEncoderLedDisplay e2)
    else (e1, [])
  else (e, [])

/-- The output-button poll body (main.cpp lines 246-255) without its side
effect: the updated button plus whether an accepted pressed edge fired. -/
def outputButtonPoll (b : ButtonInfo) (reading : Nat) (now : Nat) :
    ButtonInfo × Bool :=
  if reading ≠ b.lastState ∧ usub32 now b.lastDebounceTime > DEBOUNCE_DELAY then
    ({ b with lastDebounceTime := now, lastState := reading }, decide (reading = LOW))
  else (b, false)

-- --- String / parsing primitives used by handleSerialCommands ---

/-- `String.indexOf` of the Arduino `String` class: index of the first
occurrence of `c`, or `-1` when absent. -/
def indexOfChar (s : List Char) (c : Char) : Int :=
  match s.findIdx? (fun x => x = c) with
  | some i => (i : Int)
  | none => -1

/-- `String.lastIndexOf`: index of the last occurrence of `c`, or `-1`. -/
def lastIndexOfChar (s : List Char) (c : Char) : Int :=
  match (s.reverse.findIdx? (fun x => x = c)) with
  | some i => (s.length : Int) - 1 - (i : Int)
  | none => -1

/-- Value of a run of leading decimal digits (empty run gives 0). -/
def decDigitsVal (s : List Char) : Nat :=
  (s.takeWhile Char.isDigit).foldl (fun acc c => acc * 10 + (c.toNat - 48)) 0

/-- Arduino `String::toInt` (C `atol`): optional whitespace and sign, then
leading decimal digits; anything else stops the scan; no digits give 0. -/
def parseLong (s : List Char) : Int :=
  let t := s.dropWhile Char.isWhitespace
  match t with
  | '-' :: rest => -(decDigitsVal rest : Int)
  | '+' :: rest => (decDigitsVal rest : Int)
  | _ => (decDigitsVal t : Int)

/-- Arduino `String::toFloat` (C `atof`) restricted to plain decimal literals
`[sign] digits [. digits]`, which is the only payload shape the host protocol
uses; exponent, hexadecimal and inf/nan forms of `atof` are not modelled. -/
def parseFloat (s : List Char) : F :=
  let t := s.dropWhile Char.isWhitespace
  let signAndRest : Int × List Char :=
    match t with
    | '-' :: rest => (-1, rest)
    | '+' :: rest => (1, rest)
    | _ => (1, t)
  let intPart := signAndRest.2.takeWhile Char.isDigit
  let afterInt := signAndRest.2.dropWhile Char.isDigit
  let fracPart :=
    match afterInt with
    | '.' :: r => r.takeWhile Char.isDigit
    | _ => []
  ⟨signAndRest.1 * (decDigitsVal (intPart ++ fracPart) : Int),
   (10 : Int) ^ fracPart.length⟩

/-- Value of a hexadecimal digit, if the character is one. -/
def hexDigitVal (c : Char) : Option Nat :=
  if '0' ≤ c ∧ c ≤ '9' then some (c.toNat - 48)
  else if 'a' ≤ c ∧ c ≤ 'f' then some (c.toNat - 97 + 10)
  else if 'A' ≤ c ∧ c ≤ 'F' then some (c.toNat - 65 + 10)
  else none

/-- C `strtol(s, NULL, 16)` restricted to the shapes the protocol uses:
optional whitespace and sign, optional `0x`/`0X`, then leading hex digits;
no digits give 0 (overflow clamping to `LONG_MAX` is not modelled). -/
def parseHexLong (s : List Char) : Int :=
  let t := s.dropWhile Char.isWhitespace
  let signAndRest : Int × List Char :=
    match t with
    | '-' :: rest => (-1, rest)
    | '+' :: rest => (1, rest)
    | _ => (1, t)
  let body :=
    match signAndRest.2 with
    | '0' :: 'x' :: r => r
    | '0' :: 'X' :: r => r
    | r => r
  let digits := body.takeWhile (fun c => (hexDigitVal c).isSome)
  signAndRest.1 *
    (digits.foldl (fun acc c => acc * 16 + ((hexDigitVal c).getD 0)) 0 : Int)

/-- `hexToColor` (main.cpp lines 415-422): strip an optional `#`, parse the
rest as a hexadecimal `long`, and take bytes 2, 1, 0 of its 32-bit two's
complement representation (`(number >> 16) & 0xFF`, …). -/
def hexToColor (hex : List Char) : Color :=
  let stripped :=
    match hex with
    | '#' :: r => r
    | r => r
  let number := parseHexLong stripped
  let u := (number.emod 4294967296).toNat
  { r := u / 65536 % 256, g := u / 256 % 256, b := u % 256 }

/-- Arduino `String::equalsIgnoreCase`. -/
def equalsIgnoreCase (a b : List Char) : Bool :=
  decide (a.map Char.toLower = b.map Char.toLower)

-- --- Device state ---

/-- The firmware's global mutable state: the channel array, the button array,
the output selection, the background lighting state and the serial line
buffer. -/
structure DeviceState where
  encoders : List EncoderInfo
  buttons : List ButtonInfo
  selectedOutputIndex : Int
  backgroundMode : BackgroundMode
  backgroundSolidColor : Color
  rainbowHue : Int
  serialBuffer : List Char
deriving DecidableEq

-- --- Serial Protocol Handler (main.cpp lines 278-332) ---

/-- Processing of one complete buffered line (the body of the `c == '\n'`
branch of `handleSerialCommands`, main.cpp lines 282-326), returning the new
state, bus transactions and serial output lines. -/
def processLine (st : DeviceState) (line : List Char) :
    DeviceState × List BusEvent × List String :=
  let colonPos := indexOfChar line ':'
  if colonPos > 0 then
    let commandID := line.headD ' '
    let payload := line.drop (colonPos + 1).toNat
    if commandID = 'V' then
      let secondColonPos := indexOfChar payload ':'
      if secondColonPos > 0 then
        let encoderIndex := parseLong (payload.take secondColonPos.toNat)
        let volume := parseFloat (payload.drop (secondColonPos + 1).toNat)
        if 0 ≤ encoderIndex ∧ encoderIndex < (st.encoders.length : Int) then
          match st.encoders.get? encoderIndex.toNat with
          | some e =>
            let d := F.cround (F.mul volume (F.ofInt MAX_ENCODER_VALUE))
            let e1 := { e with lastDetentPosition := d
                              , driverCount := volumeToEncoderCount (F.ofInt d) }
            ({ st with encoders := st.encoders.set encoderIndex.toNat e1 },
             updateEncoderLedDisplay e1, [])
          | none => (st, [], [])
        else (st, [], [])
      else (st, [], [])
    else if commandID = 'C' then
      let secondColonPos := indexOfChar payload ':'
      let thirdColonPos := lastIndexOfChar payload ':'
      if secondColonPos > 0 ∧ thirdColonPos > secondColonPos then
        let encoderIndex := parseLong (payload.take secondColonPos.toNat)
        let zeroHex := (payload.take thirdColonPos.toNat).drop (secondColonPos + 1).toNat
        let fullHex := payload.drop (thirdColonPos + 1).toNat
        if 0 ≤ encoderIndex ∧ encoderIndex < (st.encoders.length : Int) then
          match st.encoders.get? encoderIndex.toNat with
          | some e =>
            let e1 := { e with zeroColor := hexToColor zeroHex
                              , fullColor := hexToColor fullHex }
            ({ st with encoders := st.encoders.set encoderIndex.toNat e1 },
             updateEncoderLedDisplay e1, [])
          | none => (st, [], [])
        else (st, [], [])
      else (st, [], [])
    else if commandID = 'B' then
      if equalsIgnoreCase payload ['r', 'g', 'b'] then
        ({ st with backgroundMode := BG_RGB }, [], [])
      else
        ({ st with backgroundMode := BG_SOLID
                 , backgroundSolidColor := hexToColor payload }, [], [])
    else if commandID = 'O' then
      let requestedIndex := parseLong payload - 1
      if 0 ≤ requestedIndex ∧ requestedIndex < (st.buttons.length : Int) then
        let r := applyOutputSelection st.buttons st.selectedOutputIndex requestedIndex false
        ({ st with selectedOutputIndex := r.1 }, r.2.1, r.2.2)
      else (st, [], [])
    else (st, [], [])
  else (st, [], [])

/-- One incoming serial character (the loop body of `handleSerialCommands`):
a newline processes and then clears the buffer, anything else is appended. -/
def handleSerialChar (st : DeviceState) (c : Char) :
    DeviceState × List BusEvent × List String :=
  if c = '\n' then
    let r := processLine st st.serialBuffer
    ({ r.1 with serialBuffer := [] }, r.2.1, r.2.2)
  else ({ st with serialBuffer := st.serialBuffer ++ [c] }, [], [])

/-- `handleSerialCommands` (main.cpp lines 278-332) over the characters
available this tick. -/
def handleSerialCommands (st : DeviceState) :
    List Char → DeviceState × List BusEvent × List String
  | [] => (st, [], [])
  | c :: cs =>
    let r := handleSerialChar st c
    let rest := handleSerialCommands r.1 cs
    (rest.1, r.2.1 ++ rest.2.1, r.2.2 ++ rest.2.2)

-- --- Background Rendering (main.cpp lines 387-412 and 424-435) ---

/-- `Wheel` (main.cpp lines 424-435): three-band hue wheel on a byte
argument. -/
def Wheel (wheelPos : Nat) : Color :=
  let w := 255 - wheelPos % 256
  if w < 85 then ⟨255 - w * 3, 0, w * 3⟩
  else if w < 170 then
    let w1 := w - 85
    ⟨0, w1 * 3, 255 - w1 * 3⟩
  else
    let w2 := w - 170
    ⟨w2 * 3, 255 - w2 * 3, 0⟩

/-- `updateBackgroundLighting` (main.cpp lines 387-412): render the backlight
segment according to the mode and advance the rainbow phase. -/
def updateBackgroundLighting (st : DeviceState) : DeviceState × List BusEvent :=
  match st.backgroundMode with
  | BG_RGB =>
    let events := (List.range BACKLIGHT_LED_COUNT.toNat).flatMap
      (fun i =>
        let ledNum := BACKLIGHT_FIRST_LED + (i : Int)
        let c := Wheel (((Int.tdiv ((i : Int) * 256) BACKLIGHT_LED_COUNT
                          + st.rainbowHue).emod 256).toNat)
        setSingleLedColor ledNum c)
    let hue1 := st.rainbowHue + 1
    ({ st with rainbowHue := if hue1 ≥ 256 * 5 then 0 else hue1 }, events)
  | BG_SOLID =>
    (st,
     (List.range BACKLIGHT_LED_COUNT.toNat).flatMap
       (fun i => setSingleLedColor (BACKLIGHT_FIRST_LED + (i : Int)) st.backgroundSolidColor))
  | BG_OFF =>
    (st,
     (List.range BACKLIGHT_LED_COUNT.toNat).flatMap
       (fun i => setSingleLedColor (BACKLIGHT_FIRST_LED + (i : Int)) ⟨0, 0, 0⟩))

-- --- Main Loop (main.cpp lines 208-261) ---

/-- Arduino `constrain(amt, low, high)`:
`(amt < low) ? low : ((amt > high) ? high : amt)`. -/
def constrainF (amt low high : F) : F :=
  if F.blt amt low then low else if F.blt high amt then high else amt

/-- The per-channel volume update of `loop` (main.cpp lines 211-230) with the
scale factor made explicit: skipped entirely when `K <= 0`, otherwise read the
raw count, clamp the requested volume, write the count back when clamping
changed it, and re-render when the rounded detent value changed. -/
def encoderVolumeStepK (K : F) (e : EncoderInfo) : EncoderInfo × List BusEvent :=
  if F.ble K (F.ofInt 0) then (e, [])
  else
    let rawCount := e.getRawCount
    let requestedVolume := encoderCountToVolumeK K rawCount
    let clampedVolume := constrainF requestedVolume (F.ofInt 0) (F.ofInt MAX_ENCODER_VALUE)
    let e1 :=
      if F.beq requestedVolume clampedVolume then e
      else { e with driverCount := volumeToEncoderCountK K clampedVolume }
    let currentDetentPosition := F.cround clampedVolume
    if currentDetentPosition ≠ e1.lastDetentPosition then
      let e2 := { e1 with lastDetentPosition := currentDetentPosition }
      (e2, updateEncoderLedDisplay e2)
    else (e1, [])

/-- The encoder volume loop (main.cpp lines 211-230) over all channels. -/
def encoderVolumeLoopK (K : F) : List EncoderInfo → List EncoderInfo × List BusEvent
  | [] => ([], [])
  | e :: es =>
    let r := encoderVolumeStepK K e
    let rest := encoderVolumeLoopK K es
    (r.1 :: rest.1, r.2 ++ rest.2)

/-- The encoder button loop (main.cpp lines 233-243) over all channels, one
`digitalRead` result per channel. -/
def encoderButtonsLoop (now : Nat) :
    List EncoderInfo → List Nat → List EncoderInfo × List BusEvent
  | es, [] => (es, [])
  | [], _ => ([], [])
  | e :: es, r :: rs =>
    let step := encoderButtonStep e r now
    let rest := encoderButtonsLoop now es rs
    (step.1 :: rest.1, step.2 ++ rest.2)

/-- The output button loop (main.cpp lines 246-255): debounce each button in
order; an accepted pressed edge calls `applyOutputSelection(i, true)` on the
button array as it stands at that iteration.  `accRev` is the reversed list of
already-processed buttons. -/
def outputButtonsLoop (now : Nat) :
    List ButtonInfo → List Nat → List ButtonInfo → Int →
    List ButtonInfo × Int × List BusEvent × List String
  | bs, [], accRev, sel => (accRev.reverse ++ bs, sel, [], [])
  | [], _, accRev, sel => (accRev.reverse, sel, [], [])
  | b :: bs, r :: rs, accRev, sel =>
    let poll := outputButtonPoll b r now
    let full := accRev.reverse ++ (poll.1 :: bs)
    let sel1 :=
      if poll.2 then applyOutputSelection full sel (accRev.length : Int) true
      else (sel, [], [])
    let rest := outputButtonsLoop now bs rs (poll.1 :: accRev) sel1.1
    (rest.1, rest.2.1, sel1.2.1 ++ rest.2.2.1, sel1.2.2 ++ rest.2.2.2)

/-- The asynchronous hardware update of the interrupt-driven encoder
counters: before each tick the hardware may have replaced every channel's
`driver.count` with a new value (one entry per channel; missing entries leave
the counter untouched). -/
def applyHardwareCounts : List EncoderInfo → List Int → List EncoderInfo
  | es, [] => es
  | [], _ => []
  | e :: es, c :: cs => { e with driverCount := c } :: applyHardwareCounts es cs

/-- The external inputs consumed by one pass of `loop`: the encoder counter
values as read this tick, the `digitalRead` levels of the encoder buttons and
of the output buttons, the `millis()` value, and the serial bytes available. -/
structure TickInput where
  driverCounts : List Int
  encoderButtonReadings : List Nat
  buttonReadings : List Nat
  now : Nat
  serialInput : List Char
deriving DecidableEq

/-- One pass of `loop` (main.cpp lines 208-261): encoder volume updates,
encoder buttons, output buttons, serial commands, background lighting,
telemetry.  Returns the new state, the bus transactions, the command-triggered
serial lines, and the telemetry line of this tick. -/
def tick (st : DeviceState) (inp : TickInput) :
    DeviceState × List BusEvent × List String × String :=
  let st0 := { st with encoders := applyHardwareCounts st.encoders inp.driverCounts }
  let vol := encoderVolumeLoopK ENCODER_VOLUME_PER_COUNT st0.encoders
  let enc := encoderButtonsLoop inp.now vol.1 inp.encoderButtonReadings
  let out := outputButtonsLoop inp.now st0.buttons inp.buttonReadings [] st0.selectedOutputIndex
  let st1 := { st0 with encoders := enc.1, buttons := out.1, selectedOutputIndex := out.2.1 }
  let ser := handleSerialCommands st1 inp.serialInput
  let bg := updateBackgroundLighting ser.1
  let telemetry := sendEncoderValues bg.1.encoders
  (bg.1,
   vol.2 ++ enc.2 ++ out.2.2.1 ++ ser.2.1 ++ bg.2,
   out.2.2.2 ++ ser.2.2,
   telemetry)

/-- The state after the tick, discarding outputs. -/
def tickState (st : DeviceState) (inp : TickInput) : DeviceState := (tick st inp).1

/-- The telemetry line emitted by the tick. -/
def tickTelemetry (st : DeviceState) (inp : TickInput) : String := (tick st inp).2.2.2

/-- A channel as constructed by the `EncoderInfo` constructor and `setup`
(main.cpp lines 70-79 and 196-201): counter zeroed, volume zero, unmuted,
button released, red-to-green gradient. -/
def initEncoder (startLed : Int) (order : List Int) : EncoderInfo :=
  { startLed := startLed
  , ledOrder := order
  , driverCount := 0
  , lastDetentPosition := 0
  , isMuted := false
  , lastButtonState := HIGH
  , lastDebounceTime := 0
  , zeroColor := ⟨50, 0, 0⟩
  , fullColor := ⟨0, 50, 0⟩ }

/-- The global state right after `setup` (main.cpp lines 178-205): the six
channels, the four output buttons with LEDs 61-64, selection 0 (from the
`applyOutputSelection(0, true)` call at the end of `setup`), solid green
background, empty serial buffer. -/
def initialState : DeviceState :=
  { encoders :=
      [ initEncoder 1 ENCODER_LED_ORDER_E1
      , initEncoder 11 ENCODER_LED_ORDER_E2
      , initEncoder 21 ENCODER_LED_ORDER_E3
      , initEncoder 31 ENCODER_LED_ORDER_E4
      , initEncoder 41 ENCODER_LED_ORDER_E5
      , initEncoder 51 ENCODER_LED_ORDER_E6 ]
  , buttons :=
      [ ⟨61, HIGH, 0⟩, ⟨62, HIGH, 0⟩, ⟨63, HIGH, 0⟩, ⟨64, HIGH, 0⟩ ]
  , selectedOutputIndex := 0
  , backgroundMode := BG_SOLID
  , backgroundSolidColor := ⟨0, 50, 0⟩
  , rainbowHue := 0
  , serialBuffer := [] }

/-- Run a sequence of `loop` passes from a state. -/
def runTicks (st : DeviceState) : List TickInput → DeviceState
  | [] => st
  | inp :: inps => runTicks (tickState st inp) inps

/-- The concrete channel configuration of the telemetry example: detent
positions `[0, 100, 50, 0, 0, 0]` with channel 1 muted. -/
def exampleChannels : List EncoderInfo :=
  [ initEncoder 1 ENCODER_LED_ORDER_E1
  , { initEncoder 11 ENCODER_LED_ORDER_E2 with lastDetentPosition := 100, isMuted := true }
  , { initEncoder 21 ENCODER_LED_ORDER_E3 with lastDetentPosition := 50 }
  , initEncoder 31 ENCODER_LED_ORDER_E4
  , initEncoder 41 ENCODER_LED_ORDER_E5
  , initEncoder 51 ENCODER_LED_ORDER_E6 ]

/-- A tick whose only external input is the serial command line `V:0:2.0`
(a `V` command with a volume fraction outside `[0.0, 1.0]`). -/
def overdriveInput : TickInput :=
  { driverCounts := []
  , encoderButtonReadings := []
  , buttonReadings := []
  , now := 0
  , serialInput := ("V:0:2.0\n").toList }

-- ------------------------------------------------------------------
-- Theorems
-- ------------------------------------------------------------------

/-- `F.cround` on fractions with a common positive denominator is monotone in
the numerator. -/
theorem cround_num_mono (d n m : Int) (hd : 0 < d) (h : n ≤ m) :
    F.cround ⟨n, d⟩ ≤ F.cround ⟨m, d⟩ := by
  simp only [F.cround, F.add, F.sub, F.neg, F.half, F.floor, F.ceil]
  have h2d : (0 : Int) ≤ d * 2 := by omega
  have h2d' : (0 : Int) < d * 2 := by omega
  by_cases hn : 0 ≤ n <;> by_cases hm : 0 ≤ m <;> simp only [hn, hm, if_pos, if_neg, if_true, if_false]
  · rw [Int.fdiv_eq_ediv _ h2d, Int.fdiv_eq_ediv _ h2d]
    exact Int.ediv_le_ediv h2d' (by nlinarith)
  · omega
  · rw [Int.fdiv_eq_ediv _ h2d, Int.fdiv_eq_ediv _ h2d]
    have hL : -(n * 2 + -1 * d) / (d * 2) ≥ 0 := Int.ediv_nonneg (by nlinarith) h2d
    have hR : (m * 2 + 1 * d) / (d * 2) ≥ 0 := Int.ediv_nonneg (by nlinarith) h2d
    omega
  · rw [Int.fdiv_eq_ediv _ h2d, Int.fdiv_eq_ediv _ h2d]
    have := Int.ediv_le_ediv h2d' (show -(m * 2 + -1 * d) ≤ -(n * 2 + -1 * d) by nlinarith)
    omega

/-- C2 counterexample: the state reached from the post-setup state by the
serial command `V:0:2.0` (volume fraction 2.0, outside `[0.0, 1.0]`) emits, on
that very tick, the telemetry line `2046|0|0|0|0|0`, whose channel-0 value
2046 is not in `[0, 1023]`: the command sets `lastDetentPosition = 200` and
the loop's clamp only runs on the next tick, after telemetry was sent. -/
theorem C2_counterexample :
    tickTelemetry initialState overdriveInput = "2046|0|0|0|0|0" ∧
    (tick initialState overdriveInput).1.encoders.map deejValue =
      [2046, 0, 0, 0, 0, 0] ∧
    ¬ ((2046 : Int) ≤ 1023) := by decide

/-- C2 (amended): every per-channel telemetry value is an integer in
`[0, 1023]` whenever every channel's `lastDetentPosition` lies in
`[0, MAX_ENCODER_VALUE]` — which the per-tick clamp re-establishes, but which
a `V` command with a fraction outside `[0.0, 1.0]` can violate on the tick
that processes it. -/
theorem C2_telemetry_values_in_range (es : List EncoderInfo)
    (h : ∀ e ∈ es, 0 ≤ e.lastDetentPosition ∧ e.lastDetentPosition ≤ MAX_ENCODER_VALUE) :
    ∀ v ∈ es.map deejValue, 0 ≤ v ∧ v ≤ 1023 := by
  intro v hv
  obtain ⟨e, he, rfl⟩ := List.mem_map.mp hv
  obtain ⟨hlo, hhi⟩ := h e he
  simp only [deejValue, arduinoMap, MAX_ENCODER_VALUE] at *
  set x : Int := if e.isMuted then 0 else e.lastDetentPosition with hx
  have hxlo : 0 ≤ x := by rw [hx]; split <;> omega
  have hxhi : x ≤ 100 := by rw [hx]; split <;> omega
  rw [Int.tdiv_eq_ediv (by nlinarith) (by norm_num)]
  constructor <;> [skip; skip] <;> omega

/-- C2 witness: the amended bound applied to the concrete example channels
(detents `[0, 100, 50, 0, 0, 0]`, channel 1 muted), at the emitted value
511. -/
theorem C2_telemetry_values_in_range_witness :
    0 ≤ (511 : Int) ∧ (511 : Int) ≤ 1023 :=
  C2_telemetry_values_in_range exampleChannels (by decide) 511 (by decide)

/-- C3: for every raw encoder count whose derived volume lies within
`[0, MAX_ENCODER_VALUE]` (the scale factor being the fixed constant
`ENCODER_VOLUME_PER_COUNT = 0.5`), converting the volume back recovers the raw
count (here even exactly, which is within "up to rounding"). -/
theorem C3_count_volume_roundtrip (r : Int)
    (h0 : F.ble (F.ofInt 0) (encoderCountToVolume r) = true)
    (h1 : F.ble (encoderCountToVolume r) (F.ofInt MAX_ENCODER_VALUE) = true) :
    volumeToEncoderCount (encoderCountToVolume r) = r := by
  simp only [encoderCountToVolume, encoderCountToVolumeK, volumeToEncoderCount,
    volumeToEncoderCountK, ENCODER_VOLUME_PER_COUNT, MAX_ENCODER_VALUE, F.ofInt,
    F.mul, F.div, F.neg, F.ble, F.cround, F.add, F.sub, F.half, F.floor, F.ceil,
    decide_eq_true_eq] at *
  norm_num at *
  split
  · rw [Int.fdiv_eq_ediv _ (by norm_num : (0:Int) ≤ 4)]
    omega
  · rw [Int.fdiv_eq_ediv _ (by norm_num : (0:Int) ≤ 4)]
    omega

/-- C3 witness at the concrete raw count `-123`. -/
theorem C3_count_volume_roundtrip_witness :
    F.ble (F.ofInt 0) (encoderCountToVolume (-123)) = true ∧
    F.ble (encoderCountToVolume (-123)) (F.ofInt MAX_ENCODER_VALUE) = true ∧
    volumeToEncoderCount (encoderCountToVolume (-123)) = -123 :=
  ⟨by decide, by decide, C3_count_volume_roundtrip (-123) (by decide) (by decide)⟩

/-- C4: when the per-detent scale factor is ≤ 0 (the firmware's own guard
condition `ENCODER_VOLUME_PER_COUNT <= 0.0f`), no division happens anywhere in
the volume mapping: `volumeToEncoderCount` returns 0 for every volume, the
per-channel tick update leaves the channel untouched and issues no bus
transaction, and the whole per-tick volume loop is a no-op. -/
theorem C4_no_division_when_disabled (K : F) (v : F) (e : EncoderInfo)
    (es : List EncoderInfo) (hK : F.ble K (F.ofInt 0) = true) :
    volumeToEncoderCountK K v = 0 ∧
    encoderVolumeStepK K e = (e, []) ∧
    encoderVolumeLoopK K es = (es, []) := by
  refine ⟨?_, ?_, ?_⟩
  · simp [volumeToEncoderCountK, hK]
  · simp [encoderVolumeStepK, hK]
  · induction es with
    | nil => simp [encoderVolumeLoopK]
    | cons e es ih => simp [encoderVolumeLoopK, encoderVolumeStepK, hK, ih]

/-- C1 counterexample: with 6 channels at detents `[0, 100, 50, 0, 0, 0]` and
channel 1 muted, the telemetry line is not `0|0|512|0|0|0`: Arduino `map`
rescales with truncating integer division, so channel 2 sends
`50 * 1023 / 100 = 511`, not 512. -/
theorem C1_counterexample :
    sendEncoderValues exampleChannels ≠ "0|0|512|0|0|0" := by decide

/-- C1 (amended): with 6 channels at detents `[0, 100, 50, 0, 0, 0]` and
channel 1 muted, the telemetry line emitted by `sendEncoderValues` is exactly
`0|0|511|0|0|0` (each detent value, with muted channels forced to 0, rescaled
from `[0, 100]` to `[0, 1023]` by the truncating Arduino `map`). -/
theorem C1_telemetry_line (e0 e1 e2 e3 e4 e5 : EncoderInfo)
    (h0 : e0.lastDetentPosition = 0) (h0m : e0.isMuted = false)
    (h1 : e1.lastDetentPosition = 100) (h1m : e1.isMuted = true)
    (h2 : e2.lastDetentPosition = 50) (h2m : e2.isMuted = false)
    (h3 : e3.lastDetentPosition = 0) (h3m : e3.isMuted = false)
    (h4 : e4.lastDetentPosition = 0) (h4m : e4.isMuted = false)
    (h5 : e5.lastDetentPosition = 0) (h5m : e5.isMuted = false) :
    sendEncoderValues [e0, e1, e2, e3, e4, e5] = "0|0|511|0|0|0" := by
  simp only [sendEncoderValues, deejValue, List.map, h0, h0m, h1, h1m, h2, h2m,
    h3, h3m, h4, h4m, h5, h5m]
  decide

/-- C1 witness: the amended telemetry equality at the concrete channel list. -/
theorem C1_telemetry_line_witness :
    sendEncoderValues exampleChannels = "0|0|511|0|0|0" := by
  have h := C1_telemetry_line
    (exampleChannels.getD 0 (initEncoder 1 []))
    (exampleChannels.getD 1 (initEncoder 1 []))
    (exampleChannels.getD 2 (initEncoder 1 []))
    (exampleChannels.getD 3 (initEncoder 1 []))
    (exampleChannels.getD 4 (initEncoder 1 []))
    (exampleChannels.getD 5 (initEncoder 1 []))
    (by decide) (by decide) (by decide) (by decide) (by decide) (by decide)
    (by decide) (by decide) (by decide) (by decide) (by decide) (by decide)
  exact h

/-- C5: the number of LEDs lit by a channel rendering pass is
`round((v / MAX_ENCODER_VALUE) * ENCODER_LED_COUNT)` where `v` is the
channel's detent value; this count is monotone non-decreasing in `v`, is 0 at
`v = 0` and is `ENCODER_LED_COUNT = 10` at `v = MAX_ENCODER_VALUE`; and the
rendering pass (muted or not) lights exactly that many positions. -/
theorem C5_lit_led_count (v w : Int) (e : EncoderInfo) (hvw : v ≤ w) :
    ledsToLight v =
      F.cround (F.mul (F.div (F.ofInt v) (F.ofInt MAX_ENCODER_VALUE))
                      (F.ofInt ENCODER_LED_COUNT)) ∧
    ledsToLight v ≤ ledsToLight w ∧
    ledsToLight 0 = 0 ∧
    ledsToLight MAX_ENCODER_VALUE = ENCODER_LED_COUNT ∧
    (if e.isMuted then mutedPairs e else gradientPairs e).length =
      (ledsToLight e.lastDetentPosition).toNat := by
  refine ⟨rfl, ?_, by decide, by decide, ?_⟩
  · exact cround_num_mono (1 * 100 * 1) (v * 1 * 10) (w * 1 * 10)
      (by norm_num) (by nlinarith)
  · by_cases hm : e.isMuted <;>
      simp [hm, mutedPairs, gradientPairs]

/-- C5 witness at detents 35 and 70 on a concrete channel. -/
theorem C5_lit_led_count_witness :
    ledsToLight 35 ≤ ledsToLight 70 ∧
    (gradientPairs (initEncoder 21 ENCODER_LED_ORDER_E3)).length =
      (ledsToLight (initEncoder 21 ENCODER_LED_ORDER_E3).lastDetentPosition).toNat := by
  have h := C5_lit_led_count 35 70 (initEncoder 21 ENCODER_LED_ORDER_E3) (by decide)
  exact ⟨h.2.1, h.2.2.2.2⟩

/-- C6: writing a color to a global LED index outside `1..TOTAL_LEDS` issues
no bus transaction; inside the range it issues exactly a bank select for bank
`(n-1) / LEDS_PER_BANK` followed (in that order) by a register write to the
chip at index `((n-1) % LEDS_PER_BANK) / LEDS_PER_CHIP` of that bank (chip
address `0x30 +` index) at register
`OUT0_COLOR_ADDR + 3 * (((n-1) % LEDS_PER_BANK) % LEDS_PER_CHIP)`. -/
theorem C6_led_addressing (n : Int) (c : Color) :
    ((n < 1 ∨ n > TOTAL_LEDS) → setSingleLedColor n c = []) ∧
    (1 ≤ n → n ≤ TOTAL_LEDS →
      setSingleLedColor n c =
        [BusEvent.selectBank (Int.tdiv (n - 1) LEDS_PER_BANK),
         BusEvent.regWrite
           (0x30 + Int.tdiv (Int.tmod (n - 1) LEDS_PER_BANK) LEDS_PER_CHIP)
           (OUT0_COLOR_ADDR + 3 * Int.tmod (Int.tmod (n - 1) LEDS_PER_BANK) LEDS_PER_CHIP)
           c]) := by
  constructor
  · intro h
    simp only [setSingleLedColor]
    rw [if_pos h]
  · intro h1 h2
    have h2' : n ≤ 96 := by simpa [TOTAL_LEDS] using h2
    interval_cases n <;> rfl

/-- C6 witness at the out-of-range index 0 and the in-range index 50
(bank 1, chip 0 of that bank at address `0x30 = 48`, register
`0x14 + 3 = 23`). -/
theorem C6_led_addressing_witness :
    setSingleLedColor 0 ⟨9, 9, 9⟩ = [] ∧
    setSingleLedColor 50 ⟨9, 9, 9⟩ =
      [BusEvent.selectBank 1, BusEvent.regWrite 48 23 ⟨9, 9, 9⟩] :=
  ⟨(C6_led_addressing 0 ⟨9, 9, 9⟩).1 (by decide),
   ((C6_led_addressing 50 ⟨9, 9, 9⟩).2 (by decide) (by decide)).trans (by decide)⟩

/-- In the button LED writes starting from loop index `k`, no pair carries the
active color when the selection is below `k`, and every pair carries the
inactive color. -/
theorem outputLedPairsFrom_counts_of_lt (bs : List ButtonInfo) (k : Nat) (sel : Int)
    (h : sel < (k : Int)) :
    (outputLedPairsFrom sel k bs).countP (fun q => decide (q.2 = BUTTON_ACTIVE_COLOR)) = 0 ∧
    (outputLedPairsFrom sel k bs).countP (fun q => decide (q.2 = BUTTON_INACTIVE_COLOR)) =
      bs.length := by
  induction bs generalizing k with
  | nil => simp [outputLedPairsFrom]
  | cons b bs ih =>
    have hk : ¬ ((k : Int) = sel) := by omega
    have ih' := ih (k + 1) (by push_cast; omega)
    simp only [outputLedPairsFrom, List.countP_cons, if_neg hk, ih'.1, ih'.2,
      List.length_cons]
    constructor <;> norm_num [BUTTON_ACTIVE_COLOR, BUTTON_INACTIVE_COLOR]

/-- In the button LED writes starting from loop index `k`, a selection inside
`[k, k + length)` yields exactly one active-colored pair and inactive color on
all the others. -/
theorem outputLedPairsFrom_counts (bs : List ButtonInfo) (k : Nat) (sel : Int)
    (h1 : (k : Int) ≤ sel) (h2 : sel < (k : Int) + bs.length) :
    (outputLedPairsFrom sel k bs).countP (fun q => decide (q.2 = BUTTON_ACTIVE_COLOR)) = 1 ∧
    (outputLedPairsFrom sel k bs).countP (fun q => decide (q.2 = BUTTON_INACTIVE_COLOR)) =
      bs.length - 1 := by
  induction bs generalizing k with
  | nil => simp at h2; omega
  | cons b bs ih =>
    simp only [List.length_cons] at h2
    push_cast at h2
    by_cases hk : (k : Int) = sel
    · have hrest := outputLedPairsFrom_counts_of_lt bs (k + 1) sel (by push_cast; omega)
      simp only [outputLedPairsFrom, List.countP_cons, if_pos hk, hrest.1, hrest.2,
        List.length_cons]
      constructor <;> norm_num [BUTTON_ACTIVE_COLOR, BUTTON_INACTIVE_COLOR]
    · have ih' := ih (k + 1) (by push_cast; omega) (by push_cast; omega)
      have hlen : 1 ≤ bs.length := by
        by_cases hc : 1 ≤ bs.length
        · exact hc
        · exfalso
          have : bs.length = 0 := by omega
          rw [this] at h2
          push_cast at h2
          omega
      simp only [outputLedPairsFrom, List.countP_cons, if_neg hk, ih'.1, ih'.2,
        List.length_cons]
      constructor <;> (norm_num [BUTTON_ACTIVE_COLOR, BUTTON_INACTIVE_COLOR]; try omega)

/-- C7: selecting a valid output index makes it the selection, colors exactly
that button's LED active and every other button LED inactive, and prints the
notification `O:<i+1>` exactly when notification was requested and the
selection changed; an invalid index changes nothing and issues nothing. -/
theorem C7_output_selection (buttons : List ButtonInfo) (sel index : Int) (notify : Bool) :
    (0 ≤ index → index < (buttons.length : Int) →
      (applyOutputSelection buttons sel index notify).1 = index ∧
      (outputLedPairs buttons index).countP
        (fun q => decide (q.2 = BUTTON_ACTIVE_COLOR)) = 1 ∧
      (outputLedPairs buttons index).countP
        (fun q => decide (q.2 = BUTTON_INACTIVE_COLOR)) = buttons.length - 1 ∧
      (applyOutputSelection buttons sel index notify).2.1 =
        (outputLedPairs buttons index).flatMap (fun p => setSingleLedColor p.1 p.2) ∧
      (applyOutputSelection buttons sel index notify).2.2 =
        (if notify = true ∧ sel ≠ index then ["O:" ++ toString (index + 1)] else [])) ∧
    ((index < 0 ∨ (buttons.length : Int) ≤ index) →
      applyOutputSelection buttons sel index notify = (sel, [], [])) := by
  constructor
  · intro h1 h2
    have hng : ¬ (index < 0 ∨ index ≥ (buttons.length : Int)) := by omega
    have hcnt := outputLedPairsFrom_counts buttons 0 index (by omega) (by push_cast; omega)
    simp only [applyOutputSelection]
    rw [if_neg hng]
    exact ⟨rfl, hcnt.1, hcnt.2, rfl, rfl⟩
  · intro h
    simp only [applyOutputSelection]
    rw [if_pos (show index < 0 ∨ index ≥ (buttons.length : Int) by omega)]

/-- C7 witness: selecting output 2 from selection 0 on the concrete button
set, with notification. -/
theorem C7_output_selection_witness :
    (applyOutputSelection initialState.buttons 0 2 true).1 = 2 ∧
    (outputLedPairs initialState.buttons 2).countP
      (fun q => decide (q.2 = BUTTON_ACTIVE_COLOR)) = 1 ∧
    (applyOutputSelection initialState.buttons 0 2 true).2.2 = ["O:3"] := by
  have h := (C7_output_selection initialState.buttons 0 2 true).1 (by decide) (by decide)
  exact ⟨h.1, h.2.1, h.2.2.2.2.trans (by decide)⟩

/-- C8: for both input kinds, a poll changes the accepted logical state only
when the raw reading differs from it and more than `DEBOUNCE_DELAY = 50` ms
elapsed since the last accepted transition (which then gets stamped with the
poll time, so the state can never change twice inside the window: a poll
within the window is a complete no-op), and the side effect (mute toggle
resp. output selection trigger) fires only on an accepted LOW (pressed)
edge. -/
theorem C8_debounce (e : EncoderInfo) (b : ButtonInfo) (reading now : Nat) :
    ((encoderButtonStep e reading now).1.lastButtonState ≠ e.lastButtonState →
      reading ≠ e.lastButtonState ∧
      usub32 now e.lastDebounceTime > DEBOUNCE_DELAY ∧
      (encoderButtonStep e reading now).1.lastDebounceTime = now) ∧
    (usub32 now e.lastDebounceTime ≤ DEBOUNCE_DELAY →
      encoderButtonStep e reading now = (e, [])) ∧
    ((encoderButtonStep e reading now).1.isMuted ≠ e.isMuted →
      reading = LOW ∧ reading ≠ e.lastButtonState ∧
      usub32 now e.lastDebounceTime > DEBOUNCE_DELAY) ∧
    ((outputButtonPoll b reading now).1.lastState ≠ b.lastState →
      reading ≠ b.lastState ∧
      usub32 now b.lastDebounceTime > DEBOUNCE_DELAY ∧
      (outputButtonPoll b reading now).1.lastDebounceTime = now) ∧
    (usub32 now b.lastDebounceTime ≤ DEBOUNCE_DELAY →
      outputButtonPoll b reading now = (b, false)) ∧
    ((outputButtonPoll b reading now).2 = true →
      reading = LOW ∧ reading ≠ b.lastState ∧
      usub32 now b.lastDebounceTime > DEBOUNCE_DELAY) := by
  refine ⟨?_, ?_, ?_, ?_, ?_, ?_⟩
  · intro h
    unfold encoderButtonStep at h
    by_cases hc : reading ≠ e.lastButtonState ∧ usub32 now e.lastDebounceTime > DEBOUNCE_DELAY
    · refine ⟨hc.1, hc.2, ?_⟩
      unfold encoderButtonStep
      rw [if_pos hc]
      by_cases hr : reading = LOW
      · rw [if_pos hr]
      · rw [if_neg hr]
    · rw [if_neg hc] at h
      exact absurd rfl h
  · intro h
    unfold encoderButtonStep
    rw [if_neg (fun hc => absurd hc.2 (by omega))]
  · intro h
    unfold encoderButtonStep at h
    by_cases hc : reading ≠ e.lastButtonState ∧ usub32 now e.lastDebounceTime > DEBOUNCE_DELAY
    · rw [if_pos hc] at h
      by_cases hr : reading = LOW
      · exact ⟨hr, hc.1, hc.2⟩
      · rw [if_neg hr] at h
        exact absurd rfl h
    · rw [if_neg hc] at h
      exact absurd rfl h
  · intro h
    unfold outputButtonPoll at h
    by_cases hc : reading ≠ b.lastState ∧ usub32 now b.lastDebounceTime > DEBOUNCE_DELAY
    · refine ⟨hc.1, hc.2, ?_⟩
      unfold outputButtonPoll
      rw [if_pos hc]
    · rw [if_neg hc] at h
      exact absurd rfl h
  · intro h
    unfold outputButtonPoll
    rw [if_neg (fun hc => absurd hc.2 (by omega))]
  · intro h
    unfold outputButtonPoll at h
    by_cases hc : reading ≠ b.lastState ∧ usub32 now b.lastDebounceTime > DEBOUNCE_DELAY
    · rw [if_pos hc] at h
      simp only [decide_eq_true_eq] at h
      exact ⟨h, hc.1, hc.2⟩
    · rw [if_neg hc] at h
      simp at h

/-- C8 witness: a pressed edge accepted at 100 ms (mute toggles, so the edge
was an accepted LOW edge), and polls 30 ms after the last transition, inside
the debounce window, that change nothing. -/
theorem C8_debounce_witness :
    (LOW = LOW ∧ LOW ≠ (initEncoder 1 ENCODER_LED_ORDER_E1).lastButtonState ∧
      usub32 100 (initEncoder 1 ENCODER_LED_ORDER_E1).lastDebounceTime > DEBOUNCE_DELAY) ∧
    encoderButtonStep (initEncoder 1 ENCODER_LED_ORDER_E1) LOW 30 =
      (initEncoder 1 ENCODER_LED_ORDER_E1, []) ∧
    outputButtonPoll ⟨61, HIGH, 0⟩ LOW 30 = (⟨61, HIGH, 0⟩, false) :=
  ⟨(C8_debounce (initEncoder 1 ENCODER_LED_ORDER_E1) ⟨61, HIGH, 0⟩ LOW 100).2.2.1 (by decide),
   (C8_debounce (initEncoder 1 ENCODER_LED_ORDER_E1) ⟨61, HIGH, 0⟩ LOW 30).2.1 (by decide),
   (C8_debounce (initEncoder 1 ENCODER_LED_ORDER_E1) ⟨61, HIGH, 0⟩ LOW 30).2.2.2.2.1 (by decide)⟩

/-- C9: a complete line without a colon (or with the colon first, i.e. an
empty command ID), or whose command ID is not `V`, `C`, `B` or `O`, leaves the
whole device state unchanged and emits neither bus transactions nor serial
output; and after any newline the line buffer is empty. -/
theorem C9_malformed_commands (st : DeviceState) (line : List Char)
    (h : indexOfChar line ':' ≤ 0 ∨ line.headD ' ' ∉ (['V', 'C', 'B', 'O'] : List Char)) :
    processLine st line = (st, [], []) ∧
    (handleSerialChar st '\n').1.serialBuffer = [] := by
  constructor
  · by_cases hc : indexOfChar line ':' > 0
    · have hmem : line.headD ' ' ∉ (['V', 'C', 'B', 'O'] : List Char) := by
        rcases h with h | h
        · omega
        · exact h
      have hV : ¬ line.headD ' ' = 'V' := fun hx => hmem (by rw [hx]; decide)
      have hC : ¬ line.headD ' ' = 'C' := fun hx => hmem (by rw [hx]; decide)
      have hB : ¬ line.headD ' ' = 'B' := fun hx => hmem (by rw [hx]; decide)
      have hO : ¬ line.headD ' ' = 'O' := fun hx => hmem (by rw [hx]; decide)
      simp only [processLine]
      rw [if_pos hc, if_neg hV, if_neg hC, if_neg hB, if_neg hO]
    · simp only [processLine]
      rw [if_neg hc]
  · simp [handleSerialChar]

/-- C9 witness: the unknown command line `X:foo` on the post-setup state. -/
theorem C9_malformed_commands_witness :
    processLine initialState ("X:foo").toList = (initialState, [], []) ∧
    (handleSerialChar initialState '\n').1.serialBuffer = [] :=
  C9_malformed_commands initialState ("X:foo").toList (by decide)

/-- Processing one line never sets the background mode to `BG_OFF`. -/
theorem processLine_mode (st : DeviceState) (l : List Char)
    (h : st.backgroundMode ≠ BG_OFF) :
    (processLine st l).1.backgroundMode ≠ BG_OFF := by
  unfold processLine
  dsimp only
  repeat' split
  all_goals first | exact h | (dsimp only; decide)

/-- Consuming one serial character never sets the background mode to
`BG_OFF`. -/
theorem handleSerialChar_mode (st : DeviceState) (c : Char)
    (h : st.backgroundMode ≠ BG_OFF) :
    (handleSerialChar st c).1.backgroundMode ≠ BG_OFF := by
  unfold handleSerialChar
  split
  · exact processLine_mode st st.serialBuffer h
  · exact h

/-- Consuming any sequence of serial characters never sets the background
mode to `BG_OFF`. -/
theorem handleSerialCommands_mode (cs : List Char) (st : DeviceState)
    (h : st.backgroundMode ≠ BG_OFF) :
    (handleSerialCommands st cs).1.backgroundMode ≠ BG_OFF := by
  induction cs generalizing st with
  | nil => exact h
  | cons c cs ih =>
    simp only [handleSerialCommands]
    exact ih _ (handleSerialChar_mode st c h)

/-- Background rendering never changes the mode. -/
theorem updateBackgroundLighting_mode (st : DeviceState)
    (h : st.backgroundMode ≠ BG_OFF) :
    (updateBackgroundLighting st).1.backgroundMode ≠ BG_OFF := by
  unfold updateBackgroundLighting
  split
  · exact h
  · exact h
  · exact h

/-- One full tick never sets the background mode to `BG_OFF`. -/
theorem tick_mode (st : DeviceState) (inp : TickInput)
    (h : st.backgroundMode ≠ BG_OFF) :
    (tick st inp).1.backgroundMode ≠ BG_OFF := by
  simp only [tick]
  exact updateBackgroundLighting_mode _ (handleSerialCommands_mode _ _ h)

/-- C10: the `BG_OFF` background mode is unreachable: the mode starts as
`BG_SOLID` and the only mutation (the `B` serial command) sets it to `BG_RGB`
or `BG_SOLID`, so no sequence of ticks and serial commands ever reaches
`BG_OFF`. -/
theorem C10_background_off_unreachable (inputs : List TickInput) :
    (runTicks initialState inputs).backgroundMode ≠ BG_OFF := by
  have hgen : ∀ (l : List TickInput) (st : DeviceState),
      st.backgroundMode ≠ BG_OFF → (runTicks st l).backgroundMode ≠ BG_OFF := by
    intro l
    induction l with
    | nil => intro st h; exact h
    | cons inp l ih =>
      intro st h
      simp only [runTicks]
      exact ih _ (tick_mode st inp h)
  exact hgen inputs initialState (by decide)

/-- C4 witness at the concrete scale factor 0 (`0/1`). -/
theorem C4_no_division_when_disabled_witness :
    F.ble (F.ofInt 0) (F.ofInt 0) = true ∧
    volumeToEncoderCountK (F.ofInt 0) (F.ofInt 7) = 0 ∧
    encoderVolumeStepK (F.ofInt 0) (initEncoder 1 ENCODER_LED_ORDER_E1) =
      (initEncoder 1 ENCODER_LED_ORDER_E1, []) ∧
    encoderVolumeLoopK (F.ofInt 0) [initEncoder 1 ENCODER_LED_ORDER_E1] =
      ([initEncoder 1 ENCODER_LED_ORDER_E1], []) := by
  have h := C4_no_division_when_disabled (F.ofInt 0) (F.ofInt 7)
    (initEncoder 1 ENCODER_LED_ORDER_E1) [initEncoder 1 ENCODER_LED_ORDER_E1] (by decide)
  exact ⟨by decide, h.1, h.2.1, h.2.2⟩

end Deej
